import Mathlib

/-!
A shallow embedding of the aggregation-and-caching core of the
SubwayDisplayHub server (`app.js`): the station directory, the
per-platform arrivals fetch with its 20 s cache, the per-station routes
fetch with its 5 min cache, the service-status fetch, and the
`/api/stations/:stationId/arrivals` handler pipeline.

Conventions of the embedding:
* JavaScript objects used as string-keyed dictionaries become association
  lists `List (String × β)`; property assignment is `mapSet` (replace the
  existing binding in place, else append), property read is `List.lookup`.
* A remote fetch is a parameter of type `Option response`: `none` models a
  network or JSON-parse error (the `catch` branch of the source), `some r`
  a successful response already decoded into the fields the code reads.
* `Date.now()` becomes an explicit `nowMs : Int` parameter (milliseconds).
* JavaScript's stable `Array.prototype.sort(cmp)` becomes `jsSortBy`,
  a stable insertion sort under the ordering induced by the comparator.
* The falsy-coalescing `x || d` on strings becomes `jsOrStr`, which
  replaces both a missing and an empty string by the default, exactly as
  the source's `||` does.
* Numeric arithmetic is modelled exactly over `Int`/`ℚ` (the magnitudes
  involved are far below the range where IEEE doubles lose integers).
-/

namespace Hub

/-- JavaScript `obj[k] = v` on an object modelled as an association list:
replace the first binding of `k` if present, else append a new binding. -/
def mapSet {β : Type} (m : List (String × β)) (k : String) (v : β) :
    List (String × β) :=
  match m with
  | [] => [(k, v)]
  | (k', v') :: rest =>
      if k' = k then (k, v) :: rest else (k', v') :: mapSet rest k v

/-- JavaScript `s || d` for a possibly-absent string `s`: both `undefined`
and the empty string (falsy) yield the default. -/
def jsOrStr (s : Option String) (d : String) : String :=
  match s with
  | some str => if str = "" then d else str
  | none => d

/-- JavaScript `arr.slice(0, e)`: a negative end index counts from the end
of the array (clamped at 0), a nonnegative one is a plain prefix length. -/
def jsSlice {α : Type} (l : List α) (e : Int) : List α :=
  if e < 0 then l.take ((l.length + e).toNat) else l.take e.toNat

/-- Insert `x` after every already-placed element `y` with `le y x`
(so later elements land after earlier equal ones). -/
def insertLe {α : Type} (le : α → α → Bool) (x : α) : List α → List α
  | [] => [x]
  | y :: ys => if le y x then y :: insertLe le x ys else x :: y :: ys

/-- JavaScript's stable `Array.prototype.sort(cmp)` for a comparator that
orders by `le` (`cmp(a, b) <= 0` iff `le a b`): elements are placed in
encounter order, each after all earlier elements it does not strictly
precede, which is exactly the ECMAScript stable-sort contract. -/
def jsSortBy {α : Type} (le : α → α → Bool) (l : List α) : List α :=
  l.foldl (fun acc x => insertLe le x acc) []

/-- Whether `needle` occurs at the head of `hay` (character lists). -/
def charsStartWith : List Char → List Char → Bool
  | [], _ => true
  | _ :: _, [] => false
  | c :: cs, d :: ds => c = d && charsStartWith cs ds

/-- Whether `needle` occurs as a contiguous run anywhere in `hay`. -/
def charsContain (needle : List Char) : List Char → Bool
  | [] => needle.isEmpty
  | d :: ds => charsStartWith needle (d :: ds) || charsContain needle ds

/-- JavaScript `hay.includes(needle)` on strings. -/
def strIncludes (hay needle : String) : Bool :=
  charsContain needle.data hay.data

/-- JavaScript `s.toUpperCase()` restricted to the basic latin letters, as
a character list (ASCII route alert texts). -/
def upperChars (s : String) : List Char :=
  s.data.map Char.toUpper

/-- Helper for `jsSplitComma`: `acc` holds the current field reversed. -/
def splitCommaAux : List Char → List Char → List String
  | [], acc => [String.mk acc.reverse]
  | c :: cs, acc =>
      if c = ',' then String.mk acc.reverse :: splitCommaAux cs []
      else splitCommaAux cs (c :: acc)

/-- JavaScript `s.split(',')`: fields between commas, empty fields kept. -/
def jsSplitComma (s : String) : List String :=
  splitCommaAux s.data []

/-- Lexicographic comparison of character lists by code point. -/
def charListLe : List Char → List Char → Bool
  | [], _ => true
  | _ :: _, [] => false
  | c :: cs, d :: ds =>
      if c.toNat < d.toNat then true
      else if d.toNat < c.toNat then false
      else charListLe cs ds

/-- The ordering of JavaScript's default `Array.prototype.sort()` on
strings: lexicographic by code unit. -/
def strLeJS (a b : String) : Bool :=
  charListLe a.data b.data

/-! ### Data model -/

/-- One row of `stations.csv` after parsing (`loadStations`). -/
structure Station where
  id : String
  name : String
  lat : String
  lon : String
  parent_id : String
deriving Repr, DecidableEq, Inhabited

/-- One arrival row as built inside `fetchSingleStationArrivals`. -/
structure ArrivalEntry where
  route_id : String
  arrival_time : Int
  current_stop : String
  last_stop_name : String
  service_status : String
deriving Repr, DecidableEq, Inhabited

/-- The `{ stationName, arrivals }` value cached per platform. -/
structure PlatformData where
  stationName : String
  arrivals : List ArrivalEntry
deriving Repr, DecidableEq, Inhabited

/-- A `{ data, timestamp }` cache slot. -/
structure CacheEntry (T : Type) where
  data : T
  timestamp : Int
deriving Repr, DecidableEq, Inhabited

/-- One stop-time record of the remote stop-detail response, restricted to
the fields the code reads.  `departureTime` is `some t` when
`stopTime.departure && stopTime.departure.time` is truthy and `parseInt`
yields `t`; `routeId`/`destName` are the optional chased fields
`stopTime.trip?.route?.id` and `stopTime.trip?.destination?.name`. -/
structure StopTime where
  departureTime : Option Int
  routeId : Option String
  destName : Option String
deriving Repr, DecidableEq, Inhabited

/-- The remote stop-detail response: `{ name, stopTimes }`. -/
structure StopResponse where
  name : Option String
  stopTimes : List StopTime
deriving Repr, DecidableEq, Inhabited

/-- One alert of a route of the remote routes-list response. -/
structure Alert where
  cause : Option String
  effect : Option String
deriving Repr, DecidableEq, Inhabited

/-- One route of the remote routes-list response; `alerts` is the value of
`route.alerts || []`. -/
structure RouteInfo where
  id : String
  alerts : List Alert
deriving Repr, DecidableEq, Inhabited

/-- One element of the `data` array of the arrivals response
(the projection at the end of the arrivals handler). -/
structure OutputEntry where
  line : String
  stop : String
  terminal : String
  scheduled : Int
  status : String
deriving Repr, DecidableEq, Inhabited

/-- The JSON body of the arrivals handler's response. -/
structure ArrivalsResponse where
  stationName : String
  platformIds : List String
  data : List OutputEntry
deriving Repr, DecidableEq, Inhabited

/-- Constant `CACHE_TTL = 20000` (arrivals cache, milliseconds). -/
def CACHE_TTL : Int := 20000

/-- Constant `ROUTES_CACHE_TTL = 300000` (routes cache, milliseconds). -/
def ROUTES_CACHE_TTL : Int := 300000

/-- The `arrivalsCache` object: station id → cached platform data. -/
abbrev ArrivalsCache := List (String × CacheEntry PlatformData)

/-- The `stationRoutesCache` object: station id → cached route list. -/
abbrev RoutesCache := List (String × CacheEntry (List String))

/-! ### Station directory (`loadStations`, `getRelatedStationIds`) -/

/-- The per-line body of `loadStations`: a row (already split on `,`) is
kept only when it has at least 5 fields. -/
def rowToStation (parts : List String) : Option Station :=
  if 5 ≤ parts.length then
    some { id := parts.getD 0 "", name := parts.getD 1 "",
           lat := parts.getD 2 "", lon := parts.getD 3 "",
           parent_id := parts.getD 4 "" }
  else none

/-- The `stationMap` object as built by `loadStations`: id → station, later rows with
the same id overwrite earlier ones. -/
def buildStationMap (rows : List (List String)) : List (String × Station) :=
  (rows.filterMap rowToStation).foldl (fun m s => mapSet m s.id s) []

/-- The `parentMap` object as built by `loadStations`: parent id → member station
ids, deduplicated, in row order. -/
def buildParentMap (rows : List (List String)) :
    List (String × List String) :=
  (rows.filterMap rowToStation).foldl
    (fun m s =>
      let cur := (m.lookup s.parent_id).getD []
      if cur.contains s.id then m else mapSet m s.parent_id (cur ++ [s.id]))
    []

/-- Function `getRelatedStationIds`: unknown id → `[stationId]`; known station →
`parentMap[parent_id] || [stationId]` (only `undefined` triggers the
fallback, an empty array would be truthy). -/
def getRelatedStationIds (stationMap : List (String × Station))
    (parentMap : List (String × List String)) (stationId : String) :
    List String :=
  match stationMap.lookup stationId with
  | none => [stationId]
  | some station =>
      match parentMap.lookup station.parent_id with
      | some ids => ids
      | none => [stationId]

/-- The platform-id resolution performed at the top of the arrivals,
routes and station handlers: `parentMap[stationId] || []`, falling back to
`getRelatedStationIds` when that list is empty. -/
def resolveComplex (stationMap : List (String × Station))
    (parentMap : List (String × List String)) (stationId : String) :
    List String :=
  let platformIds := (parentMap.lookup stationId).getD []
  if platformIds.length = 0 then
    getRelatedStationIds stationMap parentMap stationId
  else platformIds

/-! ### Single-platform arrivals fetch (`fetchSingleStationArrivals`) -/

/-- The ordering the comparator `(a, b) => a.arrival_time - b.arrival_time`
induces on entries. -/
def arrivalLe (a b : ArrivalEntry) : Bool :=
  a.arrival_time ≤ b.arrival_time

/-- The call `arr.sort((a, b) => a.arrival_time - b.arrival_time)`: a stable sort
ascending by `arrival_time`. -/
def sortByArrival (l : List ArrivalEntry) : List ArrivalEntry :=
  jsSortBy arrivalLe l

/-- The loop body of `fetchSingleStationArrivals`: a stop time with a
departure timestamp yields an entry when
`Math.floor((departureTime - now/1000) / 60) >= 0`, with `"Unknown"`
substituted for a missing (or empty) route id or destination name. -/
def mkEntry (nowMs : Int) (stationName : String) (st : StopTime) :
    Option ArrivalEntry :=
  match st.departureTime with
  | some dep =>
      -- `Math.floor((departureTime - now / 1000) / 60)` computed exactly:
      -- `Int` division rounds toward minus infinity for this positive
      -- divisor, so this is the floor of the real quotient.
      let arrivalMinutes : Int := (dep * 1000 - nowMs) / 60000
      if 0 ≤ arrivalMinutes then
        some { route_id := jsOrStr st.routeId "Unknown",
               arrival_time := arrivalMinutes,
               current_stop := stationName,
               last_stop_name := jsOrStr st.destName "Unknown",
               service_status := "Good Service" }
      else none
  | none => none

/-- The cache-miss branch of `fetchSingleStationArrivals` (the `try` body
plus the `catch`): on success build, sort and cache the platform data; on
error return `{ stationName: stationId, arrivals: [] }` without caching.
The third component records whether an upstream fetch was issued. -/
def fetchSingleMiss (cache : ArrivalsCache) (nowMs : Int)
    (stationId : String) (upstream : Option StopResponse) :
    PlatformData × ArrivalsCache × Bool :=
  match upstream with
  | some stopData =>
      let stationName := jsOrStr stopData.name stationId
      let arrivals :=
        sortByArrival (stopData.stopTimes.filterMap (mkEntry nowMs stationName))
      let pd : PlatformData := ⟨stationName, arrivals⟩
      (pd, mapSet cache stationId ⟨pd, nowMs⟩, true)
  | none => (⟨stationId, []⟩, cache, true)

/-- Function `fetchSingleStationArrivals`: serve from `arrivalsCache` when the
entry is younger than `CACHE_TTL`, else fetch (see `fetchSingleMiss`). -/
def fetchSingleStationArrivals (cache : ArrivalsCache) (nowMs : Int)
    (stationId : String) (upstream : Option StopResponse) :
    PlatformData × ArrivalsCache × Bool :=
  match cache.lookup stationId with
  | some e =>
      if nowMs - e.timestamp < CACHE_TTL then (e.data, cache, false)
      else fetchSingleMiss cache nowMs stationId upstream
  | none => fetchSingleMiss cache nowMs stationId upstream

/-! ### Multi-platform merge (`fetchMultiStationArrivals`) -/

/-- The `Promise.all(stationIds.map(fetchSingleStationArrivals))` step:
each platform id is paired with its (possibly failing) upstream response;
the cache is threaded through in order. -/
def collectPlatformResults (cache : ArrivalsCache) (nowMs : Int) :
    List (String × Option StopResponse) →
    List PlatformData × ArrivalsCache
  | [] => ([], cache)
  | p :: ps =>
      let r := fetchSingleStationArrivals cache nowMs p.1 p.2
      let rest := collectPlatformResults r.2.1 nowMs ps
      (r.1 :: rest.1, rest.2)

/-- The `stationName` accumulation loop: keep the first non-empty
(truthy) station name among the results. -/
def mergeStationName (results : List PlatformData) : String :=
  results.foldl
    (fun acc r => if acc = "" ∧ r.stationName ≠ "" then r.stationName else acc)
    ""

/-- Function `fetchMultiStationArrivals`: fetch every platform, concatenate all
arrival lists in platform order, and sort the concatenation stably by
arrival time. -/
def fetchMultiStationArrivals (cache : ArrivalsCache) (nowMs : Int)
    (platforms : List (String × Option StopResponse)) :
    PlatformData × ArrivalsCache :=
  let collected := collectPlatformResults cache nowMs platforms
  let allArrivals := collected.1.foldl (fun acc r => acc ++ r.arrivals) []
  (⟨mergeStationName collected.1, sortByArrival allArrivals⟩, collected.2)

/-! ### Service status (`fetchServiceStatus`) -/

/-- Whether one alert carries the maintenance marker:
`(a.cause || '').toUpperCase().includes('MAINTENANCE')` or the same on
`a.effect`. -/
def hasMaintenanceAlert (a : Alert) : Bool :=
  charsContain "MAINTENANCE".data (upperChars (a.cause.getD "")) ||
  charsContain "MAINTENANCE".data (upperChars (a.effect.getD ""))

/-- The status assigned to one route by `fetchServiceStatus`. -/
def routeStatus (alerts : List Alert) : String :=
  if alerts.isEmpty then "Good Service"
  else if alerts.any hasMaintenanceAlert then "Service Change"
  else "Delays"

/-- Function `fetchServiceStatus`: on error (`none`) an empty map, else one status
per listed route. -/
def fetchServiceStatus (routesData : Option (List RouteInfo)) :
    List (String × String) :=
  match routesData with
  | none => []
  | some rd => rd.foldl (fun m route => mapSet m route.id (routeStatus route.alerts)) []

/-! ### Routes per station (`fetchStationRoutes`) -/

/-- The `Set` accumulation plus `Array.from(...).sort()` of
`fetchStationRoutes`: distinct truthy route ids in first-occurrence
order, then sorted lexicographically. -/
def extractRoutes (stopTimes : List StopTime) : List String :=
  let inOrder := stopTimes.foldl
    (fun acc st =>
      match st.routeId with
      | some rid =>
          if rid = "" then acc
          else if acc.contains rid then acc else acc ++ [rid]
      | none => acc)
    []
  jsSortBy strLeJS inOrder

/-- The cache-miss branch of `fetchStationRoutes`. -/
def fetchRoutesMiss (cache : RoutesCache) (nowMs : Int)
    (stationId : String) (upstream : Option StopResponse) :
    List String × RoutesCache × Bool :=
  match upstream with
  | some stopData =>
      let routesList := extractRoutes stopData.stopTimes
      (routesList, mapSet cache stationId ⟨routesList, nowMs⟩, true)
  | none => ([], cache, true)

/-- Function `fetchStationRoutes`: serve from `stationRoutesCache` when the entry
is younger than `ROUTES_CACHE_TTL`, else fetch. -/
def fetchStationRoutes (cache : RoutesCache) (nowMs : Int)
    (stationId : String) (upstream : Option StopResponse) :
    List String × RoutesCache × Bool :=
  match cache.lookup stationId with
  | some e =>
      if nowMs - e.timestamp < ROUTES_CACHE_TTL then (e.data, cache, false)
      else fetchRoutesMiss cache nowMs stationId upstream
  | none => fetchRoutesMiss cache nowMs stationId upstream

/-! ### Arrivals handler (`/api/stations/:stationId/arrivals`) -/

/-- The expression `req.query.routes ? req.query.routes.split(',') : null`: the empty
string is falsy, so an empty `routes` parameter produces `null` exactly
like an absent one. -/
def routeFilterOf (routesParam : Option String) : Option (List String) :=
  match routesParam with
  | some s => if s = "" then none else some (jsSplitComma s)
  | none => none

/-- The expression `parseInt(req.query.max) || 30`: `none` models an absent or
non-numeric parameter (`parseInt` gives `NaN`), and an explicit `0` is
falsy, so both fall back to 30. -/
def maxResultsOf (maxParam : Option Int) : Int :=
  match maxParam with
  | some v => if v = 0 then 30 else v
  | none => 30

/-- The `.map(entry => ({...entry, service_status: ...}))` step: overwrite
the status by route-id lookup, defaulting to `"Good Service"`. -/
def applyServiceStatus (serviceStatus : List (String × String))
    (e : ArrivalEntry) : ArrivalEntry :=
  { e with service_status := jsOrStr (serviceStatus.lookup e.route_id) "Good Service" }

/-- The final projection to the public `{line, stop, terminal, scheduled,
status}` shape. -/
def projectEntry (e : ArrivalEntry) : OutputEntry :=
  ⟨e.route_id, e.current_stop, e.last_stop_name, e.arrival_time,
   e.service_status⟩

/-- The route-filter step of the handler: applied only when the filter is
present and non-empty. -/
def applyRouteFilter (routeFilter : Option (List String))
    (l : List ArrivalEntry) : List ArrivalEntry :=
  match routeFilter with
  | some f =>
      if 0 < f.length then l.filter (fun e => f.contains e.route_id) else l
  | none => l

/-- The whole `/api/stations/:stationId/arrivals` handler: resolve the
platform ids, fetch-and-merge arrivals, overwrite statuses, filter, sort,
truncate with `slice(0, maxResults)` and project.  `upstream` gives each
platform's stop-detail response and `routesData` the routes-list
response (`none` = failed fetch in both cases). -/
def getArrivals (stationMap : List (String × Station))
    (parentMap : List (String × List String)) (cache : ArrivalsCache)
    (nowMs : Int) (stationId : String) (routesParam : Option String)
    (maxParam : Option Int) (upstream : String → Option StopResponse)
    (routesData : Option (List RouteInfo)) :
    ArrivalsResponse × ArrivalsCache :=
  let routeFilter := routeFilterOf routesParam
  let maxResults := maxResultsOf maxParam
  let platformIds := resolveComplex stationMap parentMap stationId
  let fetched := fetchMultiStationArrivals cache nowMs
    (platformIds.map fun pid => (pid, upstream pid))
  let serviceStatus := fetchServiceStatus routesData
  let arrivalsWithStatus := fetched.1.arrivals.map (applyServiceStatus serviceStatus)
  let sorted := sortByArrival (applyRouteFilter routeFilter arrivalsWithStatus)
  (⟨fetched.1.stationName, platformIds,
    (jsSlice sorted maxResults).map projectEntry⟩, fetched.2)

/-! ### Heap view of the post-fetch pipeline

The cached `arrivals` arrays hold references to entry objects that later
requests share.  To reason about mutation we make the object store
explicit: a store is a list of `ArrivalEntry` objects addressed by index,
allocation appends, and the cached arrays become lists of addresses.  The
handler's `.map(entry => ({ ...entry, service_status }))` allocates a new
object per entry (object spread), `filter`/`sort`/`slice` then only
rearrange the fresh address array. -/

/-- A platform's cached value, with its arrivals as store addresses. -/
structure HeapPlatform where
  stationName : String
  arrivalAddrs : List Nat
deriving Repr, DecidableEq, Inhabited

/-- The status-overwrite map step on the heap: for each source address,
read the entry, allocate a fresh copy with the status overwritten, and
collect the fresh addresses in order. -/
def applyStatusHeap (serviceStatus : List (String × String)) :
    List ArrivalEntry → List Nat → List ArrivalEntry × List Nat
  | store, [] => (store, [])
  | store, a :: as =>
      let e := store.getD a default
      let r := applyStatusHeap serviceStatus
        (store ++ [applyServiceStatus serviceStatus e]) as
      (r.1, store.length :: r.2)

/-- The route-filter step on the heap view: the predicate reads the
entries through the store, the address array is merely filtered. -/
def heapRouteFilter (store2 : List ArrivalEntry)
    (routeFilter : Option (List String)) (addrs : List Nat) : List Nat :=
  match routeFilter with
  | some f =>
      if 0 < f.length then
        addrs.filter (fun a => f.contains (store2.getD a default).route_id)
      else addrs
  | none => addrs

/-- The post-fetch pipeline of the arrivals handler on the heap view:
concatenate the cached address arrays, copy-with-status, filter, stable
sort and truncate — returning the final store and the address array
backing the response's `data`. -/
def getArrivalsHeap (serviceStatus : List (String × String))
    (routeFilter : Option (List String)) (maxResults : Int)
    (store : List ArrivalEntry) (cached : List HeapPlatform) :
    List ArrivalEntry × List Nat :=
  let concatAddrs := cached.foldl (fun acc p => acc ++ p.arrivalAddrs) []
  let copied := applyStatusHeap serviceStatus store concatAddrs
  let store2 := copied.1
  let filtered := heapRouteFilter store2 routeFilter copied.2
  let sorted := jsSortBy
    (fun a b =>
      arrivalLe (store2.getD a default) (store2.getD b default)) filtered
  (store2, jsSlice sorted maxResults)

/-- Sortedness under a boolean comparator. -/
def SortedBy {α : Type} (le : α → α → Bool) (l : List α) : Prop :=
  l.Pairwise (fun a b => le a b = true)

/-- Invariant of the arrivals cache: every stored entry has a nonnegative
arrival time. -/
def CacheNonneg (cache : ArrivalsCache) : Prop :=
  ∀ kv ∈ cache, ∀ e ∈ kv.2.data.arrivals, 0 ≤ e.arrival_time

/-- Invariant of the arrivals cache: every stored arrival list is sorted
ascending by arrival time. -/
def CacheSorted (cache : ArrivalsCache) : Prop :=
  ∀ kv ∈ cache, SortedBy arrivalLe kv.2.data.arrivals

/-! ## Supporting lemmas about the stable sort -/

section SortLemmas

variable {α : Type} {le : α → α → Bool}

theorem mem_insertLe (x : α) (l : List α) (z : α) :
    z ∈ insertLe le x l ↔ z = x ∨ z ∈ l := by
  induction l with
  | nil => simp [insertLe]
  | cons y ys ih =>
      simp only [insertLe]
      by_cases h : le y x = true
      · rw [if_pos h]
        constructor
        · intro hz
          rcases List.mem_cons.mp hz with rfl | hz
          · exact Or.inr (List.mem_cons_self _ _)
          · rcases ih.mp hz with rfl | hz
            · exact Or.inl rfl
            · exact Or.inr (List.mem_cons_of_mem _ hz)
        · intro hz
          rcases hz with rfl | hz
          · exact List.mem_cons_of_mem _ (ih.mpr (Or.inl rfl))
          · rcases List.mem_cons.mp hz with rfl | hz
            · exact List.mem_cons_self _ _
            · exact List.mem_cons_of_mem _ (ih.mpr (Or.inr hz))
      · rw [if_neg h]
        simp only [List.mem_cons]

theorem sortedBy_insertLe
    (htot : ∀ a b, le a b = false → le b a = true)
    (htrans : ∀ a b c, le a b = true → le b c = true → le a c = true)
    (x : α) (l : List α) (h : SortedBy le l) :
    SortedBy le (insertLe le x l) := by
  induction l with
  | nil => simp [insertLe, SortedBy]
  | cons y ys ih =>
      have hhead : ∀ z ∈ ys, le y z = true :=
        fun z hz => List.rel_of_pairwise_cons h hz
      have htail : SortedBy le ys := h.of_cons
      simp only [insertLe]
      by_cases hyx : le y x = true
      · rw [if_pos hyx]
        rw [SortedBy, List.pairwise_cons]
        refine ⟨fun z hz => ?_, ih htail⟩
        rcases (mem_insertLe x ys z).mp hz with rfl | hz
        · exact hyx
        · exact hhead z hz
      · rw [if_neg hyx]
        rw [SortedBy, List.pairwise_cons, List.pairwise_cons]
        have hxy : le x y = true := htot y x (by simpa using hyx)
        refine ⟨fun z hz => ?_, fun z hz => hhead z hz, htail⟩
        rcases List.mem_cons.mp hz with rfl | hz
        · exact hxy
        · exact htrans x y z hxy (hhead z hz)

theorem sortedBy_foldl_insertLe
    (htot : ∀ a b, le a b = false → le b a = true)
    (htrans : ∀ a b c, le a b = true → le b c = true → le a c = true) :
    ∀ (l : List α) (acc : List α), SortedBy le acc →
      SortedBy le (l.foldl (fun acc x => insertLe le x acc) acc)
  | [], _, h => h
  | x :: xs, acc, h =>
      sortedBy_foldl_insertLe htot htrans xs (insertLe le x acc)
        (sortedBy_insertLe htot htrans x acc h)

theorem sortedBy_jsSortBy
    (htot : ∀ a b, le a b = false → le b a = true)
    (htrans : ∀ a b c, le a b = true → le b c = true → le a c = true)
    (l : List α) : SortedBy le (jsSortBy le l) :=
  sortedBy_foldl_insertLe htot htrans l [] (by simp [SortedBy])

theorem filter_insertLe
    (htrans : ∀ a b c, le a b = true → le b c = true → le a c = true)
    (p : α → Bool)
    (hp : ∀ a b, p a = true → p b = true → le a b = true)
    (x : α) (l : List α) (h : SortedBy le l) :
    (insertLe le x l).filter p =
      if p x then l.filter p ++ [x] else l.filter p := by
  induction l with
  | nil =>
      by_cases hx : p x = true <;> simp [insertLe, List.filter, hx]
  | cons y ys ih =>
      have hhead : ∀ z ∈ ys, le y z = true :=
        fun z hz => List.rel_of_pairwise_cons h hz
      have htail : SortedBy le ys := h.of_cons
      simp only [insertLe]
      by_cases hyx : le y x = true
      · rw [if_pos hyx]
        have ihys := ih htail
        by_cases hx : p x = true <;> by_cases hy : p y = true <;>
          simp [List.filter_cons, hx, hy, ihys]
      · rw [if_neg hyx]
        by_cases hx : p x = true
        · have hnil : (y :: ys).filter p = [] := by
            refine List.filter_eq_nil_iff.mpr fun z hz hzp => ?_
            rcases List.mem_cons.mp hz with rfl | hz
            · exact absurd (hp z x hzp hx) hyx
            · exact absurd (htrans y z x (hhead z hz) (hp z x hzp hx)) hyx
          rw [if_pos hx, hnil, List.filter_cons_of_pos hx, hnil]
          simp
        · rw [if_neg hx, List.filter_cons_of_neg (by simpa using hx)]

theorem filter_foldl_insertLe
    (htot : ∀ a b, le a b = false → le b a = true)
    (htrans : ∀ a b c, le a b = true → le b c = true → le a c = true)
    (p : α → Bool)
    (hp : ∀ a b, p a = true → p b = true → le a b = true) :
    ∀ (l : List α) (acc : List α), SortedBy le acc →
      (l.foldl (fun acc x => insertLe le x acc) acc).filter p =
        acc.filter p ++ l.filter p
  | [], acc, _ => by simp
  | x :: xs, acc, h => by
      have step := filter_foldl_insertLe htot htrans p hp xs
        (insertLe le x acc) (sortedBy_insertLe htot htrans x acc h)
      simp only [List.foldl_cons] at step ⊢
      rw [step, filter_insertLe htrans p hp x acc h]
      by_cases hx : p x = true <;> simp [hx, List.filter_cons]

theorem filter_jsSortBy
    (htot : ∀ a b, le a b = false → le b a = true)
    (htrans : ∀ a b c, le a b = true → le b c = true → le a c = true)
    (p : α → Bool)
    (hp : ∀ a b, p a = true → p b = true → le a b = true)
    (l : List α) : (jsSortBy le l).filter p = l.filter p := by
  have h := filter_foldl_insertLe htot htrans p hp l [] (by simp [SortedBy])
  simpa [jsSortBy] using h

theorem insertLe_of_all (x : α) (l : List α)
    (h : ∀ y ∈ l, le y x = true) : insertLe le x l = l ++ [x] := by
  induction l with
  | nil => simp [insertLe]
  | cons y ys ih =>
      have : le y x = true := h y (List.mem_cons_self y ys)
      simp [insertLe, this, ih fun z hz => h z (List.mem_cons_of_mem y hz)]

theorem foldl_insertLe_of_sorted :
    ∀ (l : List α) (acc : List α), SortedBy le (acc ++ l) →
      l.foldl (fun acc x => insertLe le x acc) acc = acc ++ l
  | [], acc, _ => by simp
  | x :: xs, acc, h => by
      have hall : ∀ y ∈ acc, le y x = true := by
        intro y hy
        have := (List.pairwise_append.mp h).2.2
        exact this y hy x (List.mem_cons_self x xs)
      have hins : insertLe le x acc = acc ++ [x] := insertLe_of_all x acc hall
      have hrec : SortedBy le ((acc ++ [x]) ++ xs) := by
        simpa [List.append_assoc] using h
      calc (x :: xs).foldl (fun acc x => insertLe le x acc) acc
          = xs.foldl (fun acc x => insertLe le x acc) (acc ++ [x]) := by
            simp [List.foldl_cons, hins]
        _ = (acc ++ [x]) ++ xs := foldl_insertLe_of_sorted xs (acc ++ [x]) hrec
        _ = acc ++ x :: xs := by simp [List.append_assoc]

theorem jsSortBy_of_sorted (l : List α) (h : SortedBy le l) :
    jsSortBy le l = l := by
  have := @foldl_insertLe_of_sorted _ le l [] (by simpa using h)
  simpa [jsSortBy] using this

theorem insertLe_perm (x : α) (l : List α) :
    List.Perm (insertLe le x l) (x :: l) := by
  induction l with
  | nil => simp [insertLe]
  | cons y ys ih =>
      by_cases h : le y x = true
      · simp only [insertLe]
        rw [if_pos h]
        exact (ih.cons y).trans (List.Perm.swap x y ys)
      · simp only [insertLe]
        rw [if_neg h]

theorem foldl_insertLe_perm :
    ∀ (l : List α) (acc : List α),
      List.Perm (l.foldl (fun acc x => insertLe le x acc) acc) (acc ++ l)
  | [], acc => by simp
  | x :: xs, acc => by
      have step := foldl_insertLe_perm xs (insertLe le x acc)
      simp only [List.foldl_cons]
      refine step.trans ?_
      have h1 : List.Perm (insertLe le x acc ++ xs) ((x :: acc) ++ xs) :=
        (insertLe_perm x acc).append_right xs
      refine h1.trans ?_
      exact List.perm_middle.symm

theorem jsSortBy_perm (l : List α) : List.Perm (jsSortBy le l) l := by
  simpa [jsSortBy] using @foldl_insertLe_perm _ le l []

end SortLemmas

/-- Totality of the arrivals comparator. -/
theorem arrivalLe_total (a b : ArrivalEntry) :
    arrivalLe a b = false → arrivalLe b a = true := by
  simp only [arrivalLe, decide_eq_false_iff_not, decide_eq_true_eq, not_le]
  omega

/-- Transitivity of the arrivals comparator. -/
theorem arrivalLe_trans (a b c : ArrivalEntry) :
    arrivalLe a b = true → arrivalLe b c = true → arrivalLe a c = true := by
  simp only [arrivalLe, decide_eq_true_eq]
  omega

/-! ## Lemmas about the dictionary model -/

theorem lookup_cons_eq {β : Type} (a k : String) (b : β)
    (es : List (String × β)) :
    ((k, b) :: es).lookup a = if a = k then some b else es.lookup a := by
  rw [List.lookup_cons]
  by_cases h : a = k
  · simp [h]
  · have hb : (a == k) = false := beq_eq_false_iff_ne.mpr h
    simp [hb, h]

theorem lookup_mapSet {β : Type} (m : List (String × β)) (k : String)
    (v : β) (q : String) :
    (mapSet m k v).lookup q = if q = k then some v else m.lookup q := by
  induction m with
  | nil =>
      by_cases h : q = k <;> simp [mapSet, lookup_cons_eq, h]
  | cons kv rest ih =>
      obtain ⟨a, b⟩ := kv
      by_cases ha : a = k
      · subst ha
        by_cases hq : q = a <;> simp [mapSet, lookup_cons_eq, hq]
      · by_cases hq : q = a
        · subst hq
          have hk : ¬q = k := fun h => ha h
          simp [mapSet, lookup_cons_eq, ha, hk]
        · simp [mapSet, lookup_cons_eq, ha, hq, ih]

theorem lookup_mapSet_self {β : Type} (m : List (String × β)) (k : String)
    (v : β) : (mapSet m k v).lookup k = some v := by
  simp [lookup_mapSet]

theorem mem_mapSet {β : Type} (m : List (String × β)) (k : String) (v : β) :
    ∀ kv ∈ mapSet m k v, kv = (k, v) ∨ kv ∈ m := by
  induction m with
  | nil => simp [mapSet]
  | cons hd rest ih =>
      obtain ⟨a, b⟩ := hd
      intro kv hkv
      by_cases ha : a = k
      · rw [mapSet, if_pos ha] at hkv
        rcases List.mem_cons.mp hkv with rfl | hkv
        · exact Or.inl rfl
        · exact Or.inr (List.mem_cons_of_mem _ hkv)
      · rw [mapSet, if_neg ha] at hkv
        rcases List.mem_cons.mp hkv with rfl | hkv
        · exact Or.inr (List.mem_cons_self _ _)
        · rcases ih kv hkv with h | h
          · exact Or.inl h
          · exact Or.inr (List.mem_cons_of_mem _ h)

theorem lookup_mem {β : Type} (m : List (String × β)) (q : String) (v : β)
    (h : m.lookup q = some v) : (q, v) ∈ m := by
  induction m with
  | nil => simp at h
  | cons hd rest ih =>
      obtain ⟨a, b⟩ := hd
      rw [lookup_cons_eq] at h
      by_cases hq : q = a
      · rw [if_pos hq] at h
        cases h
        subst hq
        exact List.mem_cons_self _ _
      · rw [if_neg hq] at h
        exact List.mem_cons_of_mem _ (ih h)

theorem mem_jsSortBy {α : Type} {le : α → α → Bool} (l : List α) (x : α) :
    x ∈ jsSortBy le l ↔ x ∈ l :=
  (jsSortBy_perm l).mem_iff

theorem mem_jsSlice {α : Type} (l : List α) (n : Int) :
    ∀ x ∈ jsSlice l n, x ∈ l := by
  intro x hx
  by_cases h : n < 0
  · rw [jsSlice, if_pos h] at hx
    exact List.take_subset _ _ hx
  · rw [jsSlice, if_neg h] at hx
    exact List.take_subset _ _ hx

theorem jsSlice_nil {α : Type} (e : Int) : jsSlice ([] : List α) e = [] := by
  by_cases h : e < 0 <;> simp [jsSlice, h]

theorem applyRouteFilter_nil (f : Option (List String)) :
    applyRouteFilter f [] = [] := by
  cases f with
  | none => rfl
  | some fs =>
      rw [applyRouteFilter]
      by_cases h : 0 < fs.length
      · rw [if_pos h]
        rfl
      · rw [if_neg h]

theorem mem_heapRouteFilter (store2 : List ArrivalEntry)
    (f : Option (List String)) (addrs : List Nat) :
    ∀ a ∈ heapRouteFilter store2 f addrs, a ∈ addrs := by
  intro a ha
  cases f with
  | none => exact ha
  | some fs =>
      rw [heapRouteFilter] at ha
      by_cases h : 0 < fs.length
      · rw [if_pos h] at ha
        exact (List.mem_filter.mp ha).1
      · rw [if_neg h] at ha
        exact ha

theorem mem_applyRouteFilter (f : Option (List String))
    (l : List ArrivalEntry) : ∀ x ∈ applyRouteFilter f l, x ∈ l := by
  intro x hx
  cases f with
  | none => exact hx
  | some fs =>
      rw [applyRouteFilter] at hx
      by_cases h : 0 < fs.length
      · rw [if_pos h] at hx
        exact (List.mem_filter.mp hx).1
      · rw [if_neg h] at hx
        exact hx

/-- The arrivals-concatenation loop of `fetchMultiStationArrivals` is the
flattening of the per-platform arrival lists. -/
theorem concatArr_eq : ∀ (results : List PlatformData) (acc : List ArrivalEntry),
    results.foldl (fun a r => a ++ r.arrivals) acc =
      acc ++ (results.map PlatformData.arrivals).flatten
  | [], acc => by simp
  | r :: rs, acc => by
      rw [List.foldl_cons, concatArr_eq rs (acc ++ r.arrivals)]
      simp [List.append_assoc]

theorem applyRouteFilter_sublist (f : Option (List String))
    (l : List ArrivalEntry) : List.Sublist (applyRouteFilter f l) l := by
  cases f with
  | none => exact List.Sublist.refl l
  | some fs =>
      rw [applyRouteFilter]
      by_cases h : 0 < fs.length
      · rw [if_pos h]
        exact List.filter_sublist l
      · rw [if_neg h]

/-- Entries with equal arrival time always compare `≤`. -/
theorem arrival_beq_le (t : Int) (a b : ArrivalEntry)
    (ha : (a.arrival_time == t) = true) (hb : (b.arrival_time == t) = true) :
    arrivalLe a b = true := by
  simp only [beq_iff_eq] at ha hb
  simp [arrivalLe, ha, hb]

/-- The status fold leaves keys it never writes untouched. -/
theorem lookup_statusFold_not_mem (rd : List RouteInfo)
    (m0 : List (String × String)) (q : String)
    (h : ∀ r ∈ rd, r.id ≠ q) :
    (rd.foldl (fun m route => mapSet m route.id (routeStatus route.alerts)) m0).lookup q
      = m0.lookup q := by
  induction rd generalizing m0 with
  | nil => rfl
  | cons r rest ih =>
      have hr : r.id ≠ q := h r (List.mem_cons_self _ _)
      have hrec := ih (mapSet m0 r.id (routeStatus r.alerts))
        (fun x hx => h x (List.mem_cons_of_mem _ hx))
      rw [List.foldl_cons, hrec, lookup_mapSet,
        if_neg (fun hq => hr hq.symm)]

/-- With pairwise-distinct route ids, the status fold maps each listed
route to its own status. -/
theorem lookup_statusFold (rd : List RouteInfo)
    (m0 : List (String × String)) (r : RouteInfo)
    (hnd : (rd.map RouteInfo.id).Nodup) (hr : r ∈ rd) :
    (rd.foldl (fun m route => mapSet m route.id (routeStatus route.alerts)) m0).lookup r.id
      = some (routeStatus r.alerts) := by
  induction rd generalizing m0 with
  | nil => cases hr
  | cons r0 rest ih =>
      rw [List.map_cons, List.nodup_cons] at hnd
      rcases List.mem_cons.mp hr with rfl | hr
      · rw [List.foldl_cons,
          lookup_statusFold_not_mem rest _ r.id
            (fun x hx hxq => hnd.1 (hxq ▸ List.mem_map_of_mem RouteInfo.id hx)),
          lookup_mapSet_self]
      · rw [List.foldl_cons]
        exact ih (mapSet m0 r0.id (routeStatus r0.alerts)) hnd.2 hr

/-! ## Claim theorems -/

/-- C3: a cache entry answers a request iff `now - timestamp < TTL`
(arrivals TTL 20000 ms, routes TTL 300000 ms); a miss calls the fetcher,
stores its result with the current timestamp and returns it; hence a
second `fetchStationRoutes` for the same platform within the TTL window
issues no second upstream fetch, while a call at or after expiry fetches
again. -/
theorem c3_cache_readthrough :
    CACHE_TTL = 20000 ∧ ROUTES_CACHE_TTL = 300000 ∧
    (∀ (cache : RoutesCache) (nowMs : Int) (sid : String)
        (up : Option StopResponse) (e : CacheEntry (List String)),
        cache.lookup sid = some e →
        (nowMs - e.timestamp < ROUTES_CACHE_TTL →
          fetchStationRoutes cache nowMs sid up = (e.data, cache, false)) ∧
        (ROUTES_CACHE_TTL ≤ nowMs - e.timestamp →
          fetchStationRoutes cache nowMs sid up =
            fetchRoutesMiss cache nowMs sid up)) ∧
    (∀ (cache : RoutesCache) (nowMs : Int) (sid : String)
        (up : Option StopResponse),
        cache.lookup sid = none →
        fetchStationRoutes cache nowMs sid up =
          fetchRoutesMiss cache nowMs sid up) ∧
    (∀ (cache : RoutesCache) (nowMs : Int) (sid : String) (sd : StopResponse),
        fetchRoutesMiss cache nowMs sid (some sd) =
          (extractRoutes sd.stopTimes,
           mapSet cache sid ⟨extractRoutes sd.stopTimes, nowMs⟩, true)) ∧
    (∀ (cache : RoutesCache) (nowMs : Int) (sid : String)
        (up : Option StopResponse),
        (fetchRoutesMiss cache nowMs sid up).2.2 = true) ∧
    (∀ (cache : RoutesCache) (t0 t1 : Int) (sid : String) (sd : StopResponse)
        (up2 : Option StopResponse),
        (∀ e, cache.lookup sid = some e → ROUTES_CACHE_TTL ≤ t0 - e.timestamp) →
        t1 - t0 < ROUTES_CACHE_TTL →
        fetchStationRoutes
            (fetchStationRoutes cache t0 sid (some sd)).2.1 t1 sid up2 =
          ((fetchStationRoutes cache t0 sid (some sd)).1,
           (fetchStationRoutes cache t0 sid (some sd)).2.1, false)) ∧
    (∀ (cache : ArrivalsCache) (nowMs : Int) (sid : String)
        (up : Option StopResponse) (e : CacheEntry PlatformData),
        cache.lookup sid = some e →
        (nowMs - e.timestamp < CACHE_TTL →
          fetchSingleStationArrivals cache nowMs sid up = (e.data, cache, false)) ∧
        (CACHE_TTL ≤ nowMs - e.timestamp →
          fetchSingleStationArrivals cache nowMs sid up =
            fetchSingleMiss cache nowMs sid up)) := by
  refine ⟨rfl, rfl, ?_, ?_, ?_, ?_, ?_, ?_⟩
  · intro cache nowMs sid up e he
    constructor
    · intro hlive
      simp [fetchStationRoutes, he, hlive]
    · intro hstale
      simp [fetchStationRoutes, he]
      intro h
      omega
  · intro cache nowMs sid up he
    simp [fetchStationRoutes, he]
  · intro cache nowMs sid sd
    rfl
  · intro cache nowMs sid up
    cases up <;> rfl
  · intro cache t0 t1 sid sd up2 hstale hwin
    have hfirst : fetchStationRoutes cache t0 sid (some sd) =
        (extractRoutes sd.stopTimes,
         mapSet cache sid ⟨extractRoutes sd.stopTimes, t0⟩, true) := by
      cases hcase : cache.lookup sid with
      | none => simp [fetchStationRoutes, hcase, fetchRoutesMiss]
      | some e =>
          have hs := hstale e hcase
          have hnl : ¬(t0 - e.timestamp < ROUTES_CACHE_TTL) := by omega
          simp [fetchStationRoutes, hcase, hnl, fetchRoutesMiss]
    rw [hfirst]
    simp only []
    have hl : (mapSet cache sid
        (⟨extractRoutes sd.stopTimes, t0⟩ : CacheEntry (List String))).lookup sid =
        some ⟨extractRoutes sd.stopTimes, t0⟩ := lookup_mapSet_self _ _ _
    simp [fetchStationRoutes, hl, hwin]
  · intro cache nowMs sid up e he
    constructor
    · intro hlive
      simp [fetchSingleStationArrivals, he, hlive]
    · intro hstale
      simp [fetchSingleStationArrivals, he]
      intro h
      omega

/-- Witness for C3: a stale routes-cache entry at `t0 = 300000` is
refetched, and a second call 5 ms later is answered from the refreshed
entry with no further fetch. -/
theorem c3_cache_readthrough_witness :
    fetchStationRoutes
        (fetchStationRoutes [("A", ⟨["9"], 0⟩)] 300000 "A"
          (some ⟨some "X", [⟨some 60, some "1", none⟩]⟩)).2.1
        300005 "A" none =
      ((fetchStationRoutes [("A", ⟨["9"], 0⟩)] 300000 "A"
          (some ⟨some "X", [⟨some 60, some "1", none⟩]⟩)).1,
       (fetchStationRoutes [("A", ⟨["9"], 0⟩)] 300000 "A"
          (some ⟨some "X", [⟨some 60, some "1", none⟩]⟩)).2.1, false) :=
  c3_cache_readthrough.2.2.2.2.2.2.1 [("A", ⟨["9"], 0⟩)] 300000 300005 "A"
    ⟨some "X", [⟨some 60, some "1", none⟩]⟩ none
    (fun e he => by
      simp only [lookup_cons_eq, if_pos rfl, Option.some.injEq] at he
      cases he
      decide)
    (by decide)

/-- C1 counterexample: with an explicitly empty `routes` query parameter
(`routes=`), the handler still returns the unfiltered (non-empty) data
list rather than the zero entries the claim requires. -/
theorem c1_empty_filter_counterexample :
    (getArrivals [] [] [] 0 "S" (some "") none
        (fun _ => some ⟨some "S", [⟨some 60, some "1", none⟩]⟩) none).1.data
      ≠ [] := by decide

/-- C1 (amended): an empty `routes` query parameter is falsy, so it is
treated exactly like an absent one — the route filter becomes null and the
response is the unfiltered result; only a present, non-empty parameter
filters, keeping exactly the entries whose route id it lists. -/
theorem c1_empty_routes_means_no_filter :
    routeFilterOf (some "") = none ∧ routeFilterOf none = none ∧
    (∀ (stationMap : List (String × Station))
        (parentMap : List (String × List String)) (cache : ArrivalsCache)
        (nowMs : Int) (sid : String) (maxParam : Option Int)
        (up : String → Option StopResponse)
        (rd : Option (List RouteInfo)),
        getArrivals stationMap parentMap cache nowMs sid (some "") maxParam up rd =
          getArrivals stationMap parentMap cache nowMs sid none maxParam up rd) ∧
    (∀ (stationMap : List (String × Station))
        (parentMap : List (String × List String)) (cache : ArrivalsCache)
        (nowMs : Int) (sid : String) (maxParam : Option Int)
        (up : String → Option StopResponse)
        (rd : Option (List RouteInfo)),
        (getArrivals stationMap parentMap cache nowMs sid none maxParam up rd).1.data =
          (jsSlice
            (sortByArrival
              ((fetchMultiStationArrivals cache nowMs
                  ((resolveComplex stationMap parentMap sid).map
                    fun pid => (pid, up pid))).1.arrivals.map
                (applyServiceStatus (fetchServiceStatus rd))))
            (maxResultsOf maxParam)).map projectEntry) ∧
    (∀ s : String, s ≠ "" → routeFilterOf (some s) = some (jsSplitComma s)) ∧
    (∀ (f : List String) (l : List ArrivalEntry), 0 < f.length →
        applyRouteFilter (some f) l =
          l.filter (fun e => f.contains e.route_id)) := by
  refine ⟨rfl, rfl, fun _ _ _ _ _ _ _ _ => rfl, fun _ _ _ _ _ _ _ _ => rfl,
    ?_, ?_⟩
  · intro s hs
    simp [routeFilterOf, hs]
  · intro f l hl
    simp only [applyRouteFilter, if_pos hl]

/-- Witness for C1 (amended): the non-empty-filter conjuncts evaluated at
a concrete parameter and list. -/
theorem c1_empty_routes_means_no_filter_witness :
    ("A,B" : String) ≠ "" ∧ (0:Nat) < ["A"].length ∧
    routeFilterOf (some "A,B") = some (jsSplitComma "A,B") ∧
    applyRouteFilter (some ["A"]) [⟨"A", 1, "s", "t", "g"⟩, ⟨"B", 2, "s", "t", "g"⟩] =
      List.filter (fun e => (["A"] : List String).contains e.route_id)
        [⟨"A", 1, "s", "t", "g"⟩, ⟨"B", 2, "s", "t", "g"⟩] :=
  ⟨by decide, by decide,
   c1_empty_routes_means_no_filter.2.2.2.2.1 "A,B" (by decide),
   c1_empty_routes_means_no_filter.2.2.2.2.2 ["A"]
     [⟨"A", 1, "s", "t", "g"⟩, ⟨"B", 2, "s", "t", "g"⟩] (by decide)⟩

/-- C10: an absent, non-numeric or zero `max` parameter falls back to the
default 30 (so `max=0` yields up to 30 entries, not zero), while a
negative `max` reaches `slice(0, max)` unchanged and drops the last
`|max|` entries of the sorted list instead of truncating to zero. -/
theorem c10_max_fallback_and_negative :
    maxResultsOf none = 30 ∧ maxResultsOf (some 0) = 30 ∧
    (∀ (stationMap : List (String × Station))
        (parentMap : List (String × List String)) (cache : ArrivalsCache)
        (nowMs : Int) (sid : String) (rp : Option String)
        (up : String → Option StopResponse) (rd : Option (List RouteInfo)),
        getArrivals stationMap parentMap cache nowMs sid rp (some 0) up rd =
          getArrivals stationMap parentMap cache nowMs sid rp none up rd) ∧
    (∀ (v : Int), v < 0 →
      ∀ (stationMap : List (String × Station))
        (parentMap : List (String × List String)) (cache : ArrivalsCache)
        (nowMs : Int) (sid : String) (rp : Option String)
        (up : String → Option StopResponse) (rd : Option (List RouteInfo)),
        (getArrivals stationMap parentMap cache nowMs sid rp (some v) up rd).1.data =
          (let sorted := sortByArrival
            (applyRouteFilter (routeFilterOf rp)
              ((fetchMultiStationArrivals cache nowMs
                  ((resolveComplex stationMap parentMap sid).map
                    fun pid => (pid, up pid))).1.arrivals.map
                (applyServiceStatus (fetchServiceStatus rd))))
           (sorted.take (((sorted.length : Int) + v).toNat)).map projectEntry)) := by
  refine ⟨rfl, rfl, fun _ _ _ _ _ _ _ _ => rfl, ?_⟩
  intro v hv stationMap parentMap cache nowMs sid rp up rd
  have hne : v ≠ 0 := by omega
  simp only [getArrivals, maxResultsOf, if_neg hne, jsSlice, if_pos hv]

/-- Witness for C10: `max=-1` on a two-entry result keeps exactly the
first entry (all but the last one). -/
theorem c10_max_fallback_and_negative_witness :
    ((-1 : Int) < 0) ∧
    (getArrivals [] [] [] 0 "S" none (some (-1))
        (fun _ => some ⟨some "S",
          [⟨some 60, some "1", none⟩, ⟨some 120, some "2", none⟩]⟩)
        none).1.data =
      (let sorted := sortByArrival
        (applyRouteFilter (routeFilterOf none)
          ((fetchMultiStationArrivals [] 0
              ((resolveComplex [] [] "S").map
                fun pid => (pid,
                  (fun _ => some (⟨some "S",
                    [⟨some 60, some "1", none⟩, ⟨some 120, some "2", none⟩]⟩ :
                      StopResponse)) pid))).1.arrivals.map
            (applyServiceStatus (fetchServiceStatus none))))
       (sorted.take (((sorted.length : Int) + (-1)).toNat)).map projectEntry) :=
  ⟨by decide,
   c10_max_fallback_and_negative.2.2.2 (-1) (by decide) [] [] [] 0 "S" none
     (fun _ => some ⟨some "S",
       [⟨some 60, some "1", none⟩, ⟨some 120, some "2", none⟩]⟩) none⟩

/-- C7 counterexample: with `max=-1` the handler returns one of two
entries, which is more than `maxResults = -1` — so "at most maxResults
entries" fails for a negative `max`. -/
theorem c7_counterexample :
    ¬ (((getArrivals [] [] [] 0 "S" none (some (-1))
          (fun _ => some ⟨some "S",
            [⟨some 60, some "1", none⟩, ⟨some 120, some "2", none⟩]⟩)
          none).1.data.length : Int) ≤ maxResultsOf (some (-1))) := by
  decide

/-- C7 (amended): whenever the effective `maxResults` is nonnegative — in
particular for the default 30 taken when `max` is absent — the data list
has at most `maxResults` entries and consists of exactly the first
`maxResults` entries of the sorted, filtered list; a negative `max`
instead drops entries from the end (see the C10 theorem). -/
theorem c7_truncation_nonneg (stationMap : List (String × Station))
    (parentMap : List (String × List String)) (cache : ArrivalsCache)
    (nowMs : Int) (sid : String) (rp : Option String) (mp : Option Int)
    (up : String → Option StopResponse) (rd : Option (List RouteInfo))
    (h : 0 ≤ maxResultsOf mp) :
    maxResultsOf none = 30 ∧
    (((getArrivals stationMap parentMap cache nowMs sid rp mp up rd).1.data.length : Int)
        ≤ maxResultsOf mp) ∧
    (getArrivals stationMap parentMap cache nowMs sid rp mp up rd).1.data =
      (let sorted := sortByArrival
        (applyRouteFilter (routeFilterOf rp)
          ((fetchMultiStationArrivals cache nowMs
              ((resolveComplex stationMap parentMap sid).map
                fun pid => (pid, up pid))).1.arrivals.map
            (applyServiceStatus (fetchServiceStatus rd))))
       (sorted.take (maxResultsOf mp).toNat).map projectEntry) := by
  have hnneg : ¬ maxResultsOf mp < 0 := by omega
  refine ⟨rfl, ?_, ?_⟩
  · simp only [getArrivals, jsSlice, if_neg hnneg, List.length_map,
      List.length_take]
    omega
  · simp only [getArrivals, jsSlice, if_neg hnneg]

/-- Witness for C7 (amended) at the default `max` on a concrete
two-entry fetch. -/
theorem c7_truncation_nonneg_witness :
    (0 ≤ maxResultsOf none) ∧
    (maxResultsOf none = 30 ∧
    (((getArrivals [] [] [] 0 "S" none none
        (fun _ => some ⟨some "S",
          [⟨some 60, some "1", none⟩, ⟨some 120, some "2", none⟩]⟩)
        none).1.data.length : Int) ≤ maxResultsOf none) ∧
    (getArrivals [] [] [] 0 "S" none none
        (fun _ => some ⟨some "S",
          [⟨some 60, some "1", none⟩, ⟨some 120, some "2", none⟩]⟩)
        none).1.data =
      (let sorted := sortByArrival
        (applyRouteFilter (routeFilterOf none)
          ((fetchMultiStationArrivals [] 0
              ((resolveComplex [] [] "S").map
                fun pid => (pid,
                  (fun _ => some (⟨some "S",
                    [⟨some 60, some "1", none⟩, ⟨some 120, some "2", none⟩]⟩ :
                      StopResponse)) pid))).1.arrivals.map
            (applyServiceStatus (fetchServiceStatus none))))
       (sorted.take (maxResultsOf none).toNat).map projectEntry)) :=
  ⟨by decide,
   c7_truncation_nonneg [] [] [] 0 "S" none none
     (fun _ => some ⟨some "S",
       [⟨some 60, some "1", none⟩, ⟨some 120, some "2", none⟩]⟩) none
     (by decide)⟩

/-- The integer division in `mkEntry` is exactly the real-valued
`Math.floor((departureTime - now / 1000) / 60)` of the source. -/
theorem mkEntry_div_eq_floor (dep nowMs : Int) :
    (dep * 1000 - nowMs) / 60000 =
      ⌊(((dep : ℚ)) - (nowMs : ℚ) / 1000) / 60⌋ := by
  have h : (((dep : ℚ)) - (nowMs : ℚ) / 1000) / 60 =
      ((dep * 1000 - nowMs : Int) : ℚ) / ((60000 : ℕ) : ℚ) := by
    push_cast
    ring
  rw [h, Rat.floor_intCast_div_natCast]
  norm_num

/-- C5: each stop-time record with a departure timestamp yields an entry
with `arrival_time = floor((departure_seconds - now_seconds) / 60)`;
records whose value is negative are dropped, so every entry returned by
the platform fetch has a nonnegative arrival time (and the cache keeps
that invariant); a missing route id or destination name becomes
`"Unknown"`. -/
theorem c5_arrival_minutes (nowMs : Int) (name : String) (st : StopTime)
    (dep : Int) (hdep : st.departureTime = some dep) :
    (∀ e, mkEntry nowMs name st = some e →
      e.arrival_time = ⌊(((dep : ℚ)) - (nowMs : ℚ) / 1000) / 60⌋ ∧
      0 ≤ e.arrival_time ∧
      (st.routeId = none → e.route_id = "Unknown") ∧
      (st.destName = none → e.last_stop_name = "Unknown")) ∧
    (⌊(((dep : ℚ)) - (nowMs : ℚ) / 1000) / 60⌋ < 0 →
      mkEntry nowMs name st = none) ∧
    (∀ (cache : ArrivalsCache) (sid : String) (up : Option StopResponse),
      CacheNonneg cache →
      (∀ e ∈ (fetchSingleStationArrivals cache nowMs sid up).1.arrivals,
        0 ≤ e.arrival_time) ∧
      CacheNonneg (fetchSingleStationArrivals cache nowMs sid up).2.1) := by
  have hfloor := mkEntry_div_eq_floor dep nowMs
  refine ⟨?_, ?_, ?_⟩
  · intro e he
    simp only [mkEntry, hdep] at he
    by_cases h0 : 0 ≤ (dep * 1000 - nowMs) / 60000
    · rw [if_pos h0] at he
      cases he
      refine ⟨hfloor, h0, fun hr => ?_, fun hd => ?_⟩
      · simp [jsOrStr, hr]
      · simp [jsOrStr, hd]
    · rw [if_neg h0] at he
      cases he
  · intro hneg
    simp only [mkEntry, hdep]
    rw [if_neg (by rw [hfloor]; omega)]
  · intro cache sid up hc
    have hmiss : ∀ e ∈ (fetchSingleMiss cache nowMs sid up).1.arrivals,
        0 ≤ e.arrival_time := by
      intro e he
      cases up with
      | none => simp [fetchSingleMiss] at he
      | some sd =>
          simp only [fetchSingleMiss] at he
          rw [sortByArrival, mem_jsSortBy] at he
          obtain ⟨st2, _, hmk⟩ := List.mem_filterMap.mp he
          cases hdt : st2.departureTime with
          | none =>
              simp only [mkEntry, hdt] at hmk
              cases hmk
          | some d2 =>
              simp only [mkEntry, hdt] at hmk
              by_cases h0 : 0 ≤ (d2 * 1000 - nowMs) / 60000
              · rw [if_pos h0] at hmk
                cases hmk
                exact h0
              · rw [if_neg h0] at hmk
                cases hmk
    have hmissc : CacheNonneg (fetchSingleMiss cache nowMs sid up).2.1 := by
      cases up with
      | none => exact hc
      | some sd =>
          intro kv hkv
          rcases mem_mapSet _ _ _ kv hkv with rfl | hkv
          · intro e he
            exact hmiss e he
          · exact hc kv hkv
    cases hlook : cache.lookup sid with
    | some ce =>
        by_cases hlive : nowMs - ce.timestamp < CACHE_TTL
        · simp only [fetchSingleStationArrivals, hlook, if_pos hlive]
          exact ⟨fun e he => hc (sid, ce) (lookup_mem _ _ _ hlook) e he, hc⟩
        · simp only [fetchSingleStationArrivals, hlook, if_neg hlive]
          exact ⟨hmiss, hmissc⟩
    | none =>
        simp only [fetchSingleStationArrivals, hlook]
        exact ⟨hmiss, hmissc⟩

/-- Witness for C5 on a concrete record 119 s in the future: one minute,
with the `"Unknown"` defaults filled in. -/
theorem c5_arrival_minutes_witness :
    ((⟨some 119, none, none⟩ : StopTime).departureTime = some 119) ∧
    (mkEntry 0 "S" ⟨some 119, none, none⟩ =
      some ⟨"Unknown", 1, "S", "Unknown", "Good Service"⟩) ∧
    ((⟨"Unknown", 1, "S", "Unknown", "Good Service"⟩ : ArrivalEntry).arrival_time =
      ⌊(((119 : ℚ)) - (0 : ℚ) / 1000) / 60⌋ ∧
     0 ≤ ((⟨"Unknown", 1, "S", "Unknown", "Good Service"⟩ : ArrivalEntry)).arrival_time ∧
     ((⟨some 119, none, none⟩ : StopTime).routeId = none →
       (⟨"Unknown", 1, "S", "Unknown", "Good Service"⟩ : ArrivalEntry).route_id = "Unknown") ∧
     ((⟨some 119, none, none⟩ : StopTime).destName = none →
       (⟨"Unknown", 1, "S", "Unknown", "Good Service"⟩ : ArrivalEntry).last_stop_name = "Unknown")) :=
  ⟨rfl, by decide,
   (c5_arrival_minutes 0 "S" ⟨some 119, none, none⟩ 119 rfl).1
     ⟨"Unknown", 1, "S", "Unknown", "Good Service"⟩ (by decide)⟩

/-- C6: a route with no alerts maps to `"Good Service"`; with alerts it
maps to `"Service Change"` when some alert's cause or effect contains the
maintenance marker case-insensitively, else `"Delays"`; and the handler
overwrites every entry's status by route-id lookup in this map, defaulting
to `"Good Service"` for routes absent from it. -/
theorem c6_service_status :
    (∀ (rd : List RouteInfo) (r : RouteInfo),
      (rd.map RouteInfo.id).Nodup → r ∈ rd →
      (fetchServiceStatus (some rd)).lookup r.id = some (routeStatus r.alerts) ∧
      (r.alerts = [] → routeStatus r.alerts = "Good Service") ∧
      (r.alerts ≠ [] → (∃ a ∈ r.alerts, hasMaintenanceAlert a = true) →
        routeStatus r.alerts = "Service Change") ∧
      (r.alerts ≠ [] → (∀ a ∈ r.alerts, hasMaintenanceAlert a = false) →
        routeStatus r.alerts = "Delays")) ∧
    (∀ (a : Alert), hasMaintenanceAlert a =
      (charsContain "MAINTENANCE".data (upperChars (a.cause.getD "")) ||
       charsContain "MAINTENANCE".data (upperChars (a.effect.getD "")))) ∧
    (∀ (stationMap : List (String × Station))
        (parentMap : List (String × List String)) (cache : ArrivalsCache)
        (nowMs : Int) (sid : String) (rp : Option String) (mp : Option Int)
        (up : String → Option StopResponse) (rd : Option (List RouteInfo)),
      ∀ o ∈ (getArrivals stationMap parentMap cache nowMs sid rp mp up rd).1.data,
        o.status = jsOrStr ((fetchServiceStatus rd).lookup o.line) "Good Service" ∧
        ((fetchServiceStatus rd).lookup o.line = none →
          o.status = "Good Service")) := by
  refine ⟨?_, fun a => rfl, ?_⟩
  · intro rd r hnd hr
    refine ⟨lookup_statusFold rd [] r hnd hr, ?_, ?_, ?_⟩
    · intro h
      simp [routeStatus, h]
    · intro hne hex
      have hany : r.alerts.any hasMaintenanceAlert = true :=
        List.any_eq_true.mpr hex
      rw [routeStatus, if_neg (by simpa using hne), if_pos hany]
    · intro hne hall
      have hany : r.alerts.any hasMaintenanceAlert = false := by
        rw [List.any_eq_false]
        intro a ha
        simp [hall a ha]
      rw [routeStatus, if_neg (by simpa using hne)]
      rw [if_neg (by simp [hany])]
  · intro stationMap parentMap cache nowMs sid rp mp up rd o ho
    simp only [getArrivals] at ho
    obtain ⟨e, he, rfl⟩ := List.mem_map.mp ho
    have he2 := mem_jsSlice _ _ e he
    rw [sortByArrival, mem_jsSortBy] at he2
    have he3 := mem_applyRouteFilter _ _ e he2
    obtain ⟨e0, _, rfl⟩ := List.mem_map.mp he3
    refine ⟨rfl, fun hnone => ?_⟩
    simp only [projectEntry, applyServiceStatus] at hnone ⊢
    rw [hnone]
    rfl

/-- Witness for C6 at a one-route, one-alert upstream response. -/
theorem c6_service_status_witness :
    (([⟨"A", [⟨some "Scheduled maintenance", none⟩]⟩] :
        List RouteInfo).map RouteInfo.id).Nodup ∧
    ((⟨"A", [⟨some "Scheduled maintenance", none⟩]⟩ : RouteInfo) ∈
      ([⟨"A", [⟨some "Scheduled maintenance", none⟩]⟩] : List RouteInfo)) ∧
    (fetchServiceStatus
        (some [⟨"A", [⟨some "Scheduled maintenance", none⟩]⟩])).lookup "A" =
      some (routeStatus [⟨some "Scheduled maintenance", none⟩]) ∧
    routeStatus ([] : List Alert) = "Good Service" ∧
    routeStatus [⟨some "Scheduled maintenance", none⟩] = "Service Change" ∧
    routeStatus [⟨some "signal failure", some "delays ahead"⟩] = "Delays" := by
  refine ⟨by decide, by decide,
    (c6_service_status.1 [⟨"A", [⟨some "Scheduled maintenance", none⟩]⟩]
      ⟨"A", [⟨some "Scheduled maintenance", none⟩]⟩ (by decide)
      (by decide)).1,
    by decide, by decide, by decide⟩

/-- C2: every arrivals list handed to a caller is sorted non-decreasing by
arrival time — the single-platform fetch (assuming the cache invariant),
the multi-platform merge, and the final response (`scheduled`) — and ties
keep the order of the concatenation of the platform fetch results: the
merge's tied entries equal the concatenation's, and the final data's tied
entries are an order-preserving subsequence of that concatenation's
(projected) tied entries. -/
theorem c2_sorted_and_stable :
    (∀ (cache : ArrivalsCache) (nowMs : Int) (sid : String)
        (up : Option StopResponse), CacheSorted cache →
        SortedBy arrivalLe (fetchSingleStationArrivals cache nowMs sid up).1.arrivals ∧
        CacheSorted (fetchSingleStationArrivals cache nowMs sid up).2.1) ∧
    (∀ (cache : ArrivalsCache) (nowMs : Int)
        (platforms : List (String × Option StopResponse)),
        SortedBy arrivalLe (fetchMultiStationArrivals cache nowMs platforms).1.arrivals ∧
        (∀ t : Int,
          (fetchMultiStationArrivals cache nowMs platforms).1.arrivals.filter
              (fun e => e.arrival_time == t) =
            (((collectPlatformResults cache nowMs platforms).1.map
                PlatformData.arrivals).flatten).filter
              (fun e => e.arrival_time == t))) ∧
    (∀ (stationMap : List (String × Station))
        (parentMap : List (String × List String)) (cache : ArrivalsCache)
        (nowMs : Int) (sid : String) (rp : Option String) (mp : Option Int)
        (up : String → Option StopResponse) (rd : Option (List RouteInfo)),
        List.Pairwise (fun a b : OutputEntry => a.scheduled ≤ b.scheduled)
          (getArrivals stationMap parentMap cache nowMs sid rp mp up rd).1.data ∧
        (∀ t : Int,
          List.Sublist
            ((getArrivals stationMap parentMap cache nowMs sid rp mp up rd).1.data.filter
              (fun o => o.scheduled == t))
            (((((collectPlatformResults cache nowMs
                  ((resolveComplex stationMap parentMap sid).map
                    fun pid => (pid, up pid))).1.map
                PlatformData.arrivals).flatten).filter
                (fun e => e.arrival_time == t)).map
              (fun e => projectEntry (applyServiceStatus (fetchServiceStatus rd) e))))) := by
  have hsort : ∀ l, SortedBy arrivalLe (sortByArrival l) :=
    fun l => sortedBy_jsSortBy arrivalLe_total arrivalLe_trans l
  have hstab : ∀ (t : Int) (l : List ArrivalEntry),
      (sortByArrival l).filter (fun e => e.arrival_time == t) =
        l.filter (fun e => e.arrival_time == t) :=
    fun t l => filter_jsSortBy arrivalLe_total arrivalLe_trans _
      (arrival_beq_le t) l
  refine ⟨?_, ?_, ?_⟩
  · intro cache nowMs sid up hc
    have hmiss : SortedBy arrivalLe (fetchSingleMiss cache nowMs sid up).1.arrivals := by
      cases up with
      | none => simp [fetchSingleMiss, SortedBy]
      | some sd => exact hsort _
    have hmissc : CacheSorted (fetchSingleMiss cache nowMs sid up).2.1 := by
      cases up with
      | none => exact hc
      | some sd =>
          intro kv hkv
          rcases mem_mapSet _ _ _ kv hkv with rfl | hkv
          · exact hsort _
          · exact hc kv hkv
    cases hlook : cache.lookup sid with
    | some ce =>
        by_cases hlive : nowMs - ce.timestamp < CACHE_TTL
        · simp only [fetchSingleStationArrivals, hlook, if_pos hlive]
          exact ⟨hc (sid, ce) (lookup_mem _ _ _ hlook), hc⟩
        · simp only [fetchSingleStationArrivals, hlook, if_neg hlive]
          exact ⟨hmiss, hmissc⟩
    | none =>
        simp only [fetchSingleStationArrivals, hlook]
        exact ⟨hmiss, hmissc⟩
  · intro cache nowMs platforms
    constructor
    · exact hsort _
    · intro t
      show (sortByArrival _).filter _ = _
      rw [hstab t, concatArr_eq _ []]
      rfl
  · intro stationMap parentMap cache nowMs sid rp mp up rd
    constructor
    · show List.Pairwise _ ((jsSlice (sortByArrival _) _).map projectEntry)
      rw [List.pairwise_map]
      have h1 : SortedBy arrivalLe (sortByArrival
          (applyRouteFilter (routeFilterOf rp)
            ((fetchMultiStationArrivals cache nowMs
                ((resolveComplex stationMap parentMap sid).map
                  fun pid => (pid, up pid))).1.arrivals.map
              (applyServiceStatus (fetchServiceStatus rd))))) := hsort _
      have h2 : SortedBy arrivalLe (jsSlice (sortByArrival
          (applyRouteFilter (routeFilterOf rp)
            ((fetchMultiStationArrivals cache nowMs
                ((resolveComplex stationMap parentMap sid).map
                  fun pid => (pid, up pid))).1.arrivals.map
              (applyServiceStatus (fetchServiceStatus rd)))))
          (maxResultsOf mp)) := by
        refine List.Pairwise.sublist ?_ h1
        by_cases h : maxResultsOf mp < 0
        · rw [jsSlice, if_pos h]
          exact List.take_sublist _ _
        · rw [jsSlice, if_neg h]
          exact List.take_sublist _ _
      refine h2.imp ?_
      intro a b hab
      simpa [arrivalLe, projectEntry] using hab
    · intro t
      show List.Sublist
        (((jsSlice (sortByArrival _) _).map projectEntry).filter _) _
      rw [List.filter_map]
      have hcomp : ((fun o : OutputEntry => o.scheduled == t) ∘ projectEntry) =
          (fun e : ArrivalEntry => e.arrival_time == t) := rfl
      rw [hcomp]
      have hsl1 : List.Sublist
          ((jsSlice (sortByArrival
            (applyRouteFilter (routeFilterOf rp)
              ((fetchMultiStationArrivals cache nowMs
                  ((resolveComplex stationMap parentMap sid).map
                    fun pid => (pid, up pid))).1.arrivals.map
                (applyServiceStatus (fetchServiceStatus rd)))))
            (maxResultsOf mp)).filter (fun e => e.arrival_time == t))
          ((sortByArrival
            (applyRouteFilter (routeFilterOf rp)
              ((fetchMultiStationArrivals cache nowMs
                  ((resolveComplex stationMap parentMap sid).map
                    fun pid => (pid, up pid))).1.arrivals.map
                (applyServiceStatus (fetchServiceStatus rd))))).filter
            (fun e => e.arrival_time == t)) := by
        refine List.Sublist.filter _ ?_
        by_cases h : maxResultsOf mp < 0
        · rw [jsSlice, if_pos h]
          exact List.take_sublist _ _
        · rw [jsSlice, if_neg h]
          exact List.take_sublist _ _
      rw [hstab t] at hsl1
      have hsl2 := List.Sublist.filter (fun e => e.arrival_time == t)
        (applyRouteFilter_sublist (routeFilterOf rp)
          ((fetchMultiStationArrivals cache nowMs
              ((resolveComplex stationMap parentMap sid).map
                fun pid => (pid, up pid))).1.arrivals.map
            (applyServiceStatus (fetchServiceStatus rd))))
      have hsl3 := hsl1.trans hsl2
      rw [List.filter_map] at hsl3
      have hcomp2 : ((fun e : ArrivalEntry => e.arrival_time == t) ∘
          applyServiceStatus (fetchServiceStatus rd)) =
          (fun e : ArrivalEntry => e.arrival_time == t) := rfl
      rw [hcomp2] at hsl3
      have hmul : (fetchMultiStationArrivals cache nowMs
          ((resolveComplex stationMap parentMap sid).map
            fun pid => (pid, up pid))).1.arrivals.filter
            (fun e => e.arrival_time == t) =
          (((collectPlatformResults cache nowMs
              ((resolveComplex stationMap parentMap sid).map
                fun pid => (pid, up pid))).1.map
              PlatformData.arrivals).flatten).filter
            (fun e => e.arrival_time == t) := by
        show (sortByArrival _).filter _ = _
        rw [hstab t, concatArr_eq _ []]
        rfl
      rw [hmul] at hsl3
      have hfinal := hsl3.map projectEntry
      rw [List.map_map] at hfinal
      exact hfinal

/-- Witness for C2 on a fresh cache and one platform whose response lists
two trains out of order. -/
theorem c2_sorted_and_stable_witness :
    CacheSorted [] ∧
    SortedBy arrivalLe
      (fetchSingleStationArrivals [] 0 "101"
        (some ⟨some "S", [⟨some 120, some "1", none⟩, ⟨some 60, some "2", none⟩]⟩)).1.arrivals ∧
    CacheSorted
      (fetchSingleStationArrivals [] 0 "101"
        (some ⟨some "S", [⟨some 120, some "1", none⟩, ⟨some 60, some "2", none⟩]⟩)).2.1 :=
  ⟨by simp [CacheSorted],
   (c2_sorted_and_stable.1 [] 0 "101"
     (some ⟨some "S", [⟨some 120, some "1", none⟩, ⟨some 60, some "2", none⟩]⟩)
     (by simp [CacheSorted])).1,
   (c2_sorted_and_stable.1 [] 0 "101"
     (some ⟨some "S", [⟨some 120, some "1", none⟩, ⟨some 60, some "2", none⟩]⟩)
     (by simp [CacheSorted])).2⟩

/-- One step of the `parentMap` fold, characterised: an id is in the list
stored under `q` afterwards iff it was there before or the processed
station contributed it. -/
theorem parentStep_lookup (m : List (String × List String)) (s0 : Station)
    (q b : String) :
    (b ∈ (((let cur := (m.lookup s0.parent_id).getD []
            if cur.contains s0.id then m
            else mapSet m s0.parent_id (cur ++ [s0.id])).lookup q).getD [])) ↔
      (b ∈ ((m.lookup q).getD []) ∨ (s0.id = b ∧ s0.parent_id = q)) := by
  by_cases hc : ((m.lookup s0.parent_id).getD []).contains s0.id = true
  · rw [if_pos hc]
    constructor
    · exact Or.inl
    · intro h
      rcases h with h | ⟨hb, hq⟩
      · exact h
      · subst hb
        subst hq
        exact List.elem_iff.mp hc
  · rw [if_neg hc, lookup_mapSet]
    by_cases hq : q = s0.parent_id
    · rw [if_pos hq]
      subst hq
      simp only [Option.getD_some, List.mem_append, List.mem_singleton]
      constructor
      · intro h
        rcases h with h | rfl
        · exact Or.inl h
        · exact Or.inr ⟨rfl, by trivial⟩
      · intro h
        rcases h with h | ⟨rfl, -⟩
        · exact Or.inl h
        · exact Or.inr rfl
    · rw [if_neg hq]
      constructor
      · exact Or.inl
      · intro h
        rcases h with h | ⟨-, hp⟩
        · exact h
        · exact absurd hp.symm hq

/-- The `parentMap` fold, characterised by membership. -/
theorem parentFold_lookup : ∀ (ss : List Station)
    (m : List (String × List String)) (q b : String),
    (b ∈ ((ss.foldl (fun m s =>
        let cur := (m.lookup s.parent_id).getD []
        if cur.contains s.id then m
        else mapSet m s.parent_id (cur ++ [s.id])) m).lookup q).getD []) ↔
      (b ∈ ((m.lookup q).getD []) ∨ ∃ s ∈ ss, s.id = b ∧ s.parent_id = q)
  | [], m, q, b => by simp
  | s0 :: ss, m, q, b => by
      rw [List.foldl_cons, parentFold_lookup ss _ q b]
      constructor
      · intro h
        rcases h with h | hex
        · rcases (parentStep_lookup m s0 q b).mp h with h | h
          · exact Or.inl h
          · exact Or.inr ⟨s0, List.mem_cons_self _ _, h⟩
        · obtain ⟨s, hs, hp⟩ := hex
          exact Or.inr ⟨s, List.mem_cons_of_mem _ hs, hp⟩
      · intro h
        rcases h with h | hex
        · exact Or.inl ((parentStep_lookup m s0 q b).mpr (Or.inl h))
        · obtain ⟨s, hs, hp⟩ := hex
          rcases List.mem_cons.mp hs with heq | hs
          · subst heq
            exact Or.inl ((parentStep_lookup m s q b).mpr (Or.inr hp))
          · exact Or.inr ⟨s, hs, hp⟩

/-- Every list stored by the `parentMap` fold is non-empty. -/
theorem parentFold_values_nonempty : ∀ (ss : List Station)
    (m : List (String × List String)),
    (∀ kv ∈ m, kv.2 ≠ ([] : List String)) →
    ∀ kv ∈ ss.foldl (fun m s =>
        let cur := (m.lookup s.parent_id).getD []
        if cur.contains s.id then m
        else mapSet m s.parent_id (cur ++ [s.id])) m, kv.2 ≠ []
  | [], m, hm => hm
  | s0 :: ss, m, hm => by
      rw [List.foldl_cons]
      refine parentFold_values_nonempty ss _ ?_
      intro kv hkv
      by_cases hc : ((m.lookup s0.parent_id).getD []).contains s0.id = true
      · rw [if_pos hc] at hkv
        exact hm kv hkv
      · rw [if_neg hc] at hkv
        rcases mem_mapSet _ _ _ kv hkv with rfl | hkv
        · simp
        · exact hm kv hkv

/-- The `stationMap` fold: a successful lookup returns a parsed station
carrying the looked-up id. -/
theorem stationFold_lookup : ∀ (ss : List Station)
    (m : List (String × Station)) (sid : String) (st : Station),
    (ss.foldl (fun m s => mapSet m s.id s) m).lookup sid = some st →
    (st ∈ ss ∧ st.id = sid) ∨ m.lookup sid = some st
  | [], m, sid, st => fun h => Or.inr h
  | s0 :: ss, m, sid, st => by
      intro h
      rw [List.foldl_cons] at h
      rcases stationFold_lookup ss _ sid st h with ⟨hmem, hid⟩ | hm
      · exact Or.inl ⟨List.mem_cons_of_mem _ hmem, hid⟩
      · rw [lookup_mapSet] at hm
        by_cases hq : sid = s0.id
        · rw [if_pos hq] at hm
          cases hm
          exact Or.inl ⟨List.mem_cons_self _ _, hq.symm⟩
        · rw [if_neg hq] at hm
          exact Or.inr hm

theorem buildStationMap_lookup (rows : List (List String)) (sid : String)
    (st : Station) (h : (buildStationMap rows).lookup sid = some st) :
    st ∈ rows.filterMap rowToStation ∧ st.id = sid := by
  rcases stationFold_lookup _ [] sid st h with hok | hnil
  · exact hok
  · simp at hnil

theorem buildParentMap_lookup_mem (rows : List (List String)) (q b : String) :
    (b ∈ (((buildParentMap rows).lookup q).getD [])) ↔
      ∃ s ∈ rows.filterMap rowToStation, s.id = b ∧ s.parent_id = q := by
  rw [buildParentMap, parentFold_lookup]
  simp

theorem buildParentMap_values_nonempty (rows : List (List String))
    (q : String) (l : List String)
    (h : (buildParentMap rows).lookup q = some l) : l ≠ [] := by
  have := parentFold_values_nonempty (rows.filterMap rowToStation) []
    (by simp) (q, l) (lookup_mem _ _ _ h)
  exact this

theorem resolveComplex_parent_some (SM : List (String × Station))
    (PM : List (String × List String)) (sid : String) (l : List String)
    (h : PM.lookup sid = some l) (hne : l ≠ []) :
    resolveComplex SM PM sid = l := by
  have hlen : ¬ l.length = 0 := fun hx => hne (List.length_eq_zero.mp hx)
  simp only [resolveComplex, h, Option.getD_some, if_neg hlen]

theorem resolveComplex_parent_none (SM : List (String × Station))
    (PM : List (String × List String)) (sid : String)
    (h : PM.lookup sid = none) :
    resolveComplex SM PM sid = getRelatedStationIds SM PM sid := by
  simp [resolveComplex, h]

theorem getRelatedStationIds_some_some (SM : List (String × Station))
    (PM : List (String × List String)) (sid : String) (st : Station)
    (l : List String) (hst : SM.lookup sid = some st)
    (hl : PM.lookup st.parent_id = some l) :
    getRelatedStationIds SM PM sid = l := by
  simp only [getRelatedStationIds, hst, hl]

theorem getRelatedStationIds_unknown (SM : List (String × Station))
    (PM : List (String × List String)) (sid : String)
    (hst : SM.lookup sid = none) :
    getRelatedStationIds SM PM sid = [sid] := by
  simp only [getRelatedStationIds, hst]

/-- C4: resolution of an id to its platform set — a known `parent_id`
yields exactly the member platform ids; otherwise a known station id
yields exactly the platforms sharing that station's `parent_id`; an id
known to neither map resolves to itself alone; and resolving a station's
id (when it is not itself a parent key, or is its own parent) gives the
same list as resolving its `parent_id`. -/
theorem c4_resolve_complex (rows : List (List String)) (anyId : String) :
    (∀ l, (buildParentMap rows).lookup anyId = some l →
      resolveComplex (buildStationMap rows) (buildParentMap rows) anyId = l ∧
      (∀ a, a ∈ l ↔
        ∃ s ∈ rows.filterMap rowToStation, s.id = a ∧ s.parent_id = anyId)) ∧
    ((buildParentMap rows).lookup anyId = none →
      ∀ st, (buildStationMap rows).lookup anyId = some st →
      (∀ a, a ∈ resolveComplex (buildStationMap rows) (buildParentMap rows) anyId ↔
        ∃ s ∈ rows.filterMap rowToStation, s.id = a ∧ s.parent_id = st.parent_id)) ∧
    ((buildParentMap rows).lookup anyId = none →
      (buildStationMap rows).lookup anyId = none →
      resolveComplex (buildStationMap rows) (buildParentMap rows) anyId = [anyId]) ∧
    (∀ st, (buildStationMap rows).lookup anyId = some st →
      ((buildParentMap rows).lookup anyId = none ∨ anyId = st.parent_id) →
      resolveComplex (buildStationMap rows) (buildParentMap rows) anyId =
        resolveComplex (buildStationMap rows) (buildParentMap rows) st.parent_id) := by
  have hmem := buildParentMap_lookup_mem rows
  have hres_known : ∀ st, (buildStationMap rows).lookup anyId = some st →
      ∃ l, (buildParentMap rows).lookup st.parent_id = some l ∧ st.id ∈ l := by
    intro st hst
    obtain ⟨hstmem, hstid⟩ := buildStationMap_lookup rows anyId st hst
    have hin : st.id ∈ (((buildParentMap rows).lookup st.parent_id).getD []) :=
      (hmem st.parent_id st.id).mpr ⟨st, hstmem, rfl, rfl⟩
    cases hl : (buildParentMap rows).lookup st.parent_id with
    | none => rw [hl] at hin; cases hin
    | some l =>
        rw [hl] at hin
        exact ⟨l, rfl, hin⟩
  refine ⟨?_, ?_, ?_, ?_⟩
  · intro l hl
    have hne : l ≠ [] := buildParentMap_values_nonempty rows anyId l hl
    constructor
    · exact resolveComplex_parent_some _ _ _ _ hl hne
    · intro a
      have := hmem anyId a
      rw [hl] at this
      simpa using this
  · intro hnone st hst a
    obtain ⟨l, hl, hstin⟩ := hres_known st hst
    have hres : resolveComplex (buildStationMap rows) (buildParentMap rows) anyId = l := by
      rw [resolveComplex_parent_none _ _ _ hnone,
        getRelatedStationIds_some_some _ _ _ st l hst hl]
    rw [hres]
    have := hmem st.parent_id a
    rw [hl] at this
    simpa using this
  · intro hnone hstnone
    rw [resolveComplex_parent_none _ _ _ hnone,
      getRelatedStationIds_unknown _ _ _ hstnone]
  · intro st hst hcase
    rcases hcase with hnone | rfl
    · obtain ⟨l, hl, hstin⟩ := hres_known st hst
      have hne : l ≠ [] := fun h => by simp [h] at hstin
      rw [resolveComplex_parent_none _ _ _ hnone,
        getRelatedStationIds_some_some _ _ _ st l hst hl,
        resolveComplex_parent_some _ _ _ _ hl hne]
    · rfl

/-- Witness for C4 on a two-platform complex `P1 = {101, 102}` plus an
unknown id. -/
theorem c4_resolve_complex_witness :
    (resolveComplex
        (buildStationMap [["101", "Foo St", "1", "2", "P1"],
                          ["102", "Bar Av", "3", "4", "P1"]])
        (buildParentMap [["101", "Foo St", "1", "2", "P1"],
                         ["102", "Bar Av", "3", "4", "P1"]])
        "P1" = ["101", "102"]) ∧
    (resolveComplex
        (buildStationMap [["101", "Foo St", "1", "2", "P1"],
                          ["102", "Bar Av", "3", "4", "P1"]])
        (buildParentMap [["101", "Foo St", "1", "2", "P1"],
                         ["102", "Bar Av", "3", "4", "P1"]])
        "101" =
      resolveComplex
        (buildStationMap [["101", "Foo St", "1", "2", "P1"],
                          ["102", "Bar Av", "3", "4", "P1"]])
        (buildParentMap [["101", "Foo St", "1", "2", "P1"],
                         ["102", "Bar Av", "3", "4", "P1"]])
        "P1") ∧
    (resolveComplex
        (buildStationMap [["101", "Foo St", "1", "2", "P1"],
                          ["102", "Bar Av", "3", "4", "P1"]])
        (buildParentMap [["101", "Foo St", "1", "2", "P1"],
                         ["102", "Bar Av", "3", "4", "P1"]])
        "ZZZ" = ["ZZZ"]) :=
  ⟨((c4_resolve_complex _ "P1").1 ["101", "102"] (by decide)).1,
   (c4_resolve_complex _ "101").2.2.2 ⟨"101", "Foo St", "1", "2", "P1"⟩
     (by decide) (Or.inl (by decide)),
   (c4_resolve_complex _ "ZZZ").2.2.1 (by decide) (by decide)⟩

/-- All platform fetches failing on a fresh cache produce empty platform
results and leave the cache empty. -/
theorem collect_all_fail : ∀ (pids : List String) (nowMs : Int),
    collectPlatformResults [] nowMs
        (pids.map fun pid => (pid, (none : Option StopResponse))) =
      (pids.map fun pid => (⟨pid, []⟩ : PlatformData), ([] : ArrivalsCache))
  | [], nowMs => rfl
  | p :: ps, nowMs => by
      simp only [List.map_cons, collectPlatformResults,
        fetchSingleStationArrivals, List.lookup_nil, fetchSingleMiss,
        collect_all_fail ps nowMs]

/-- C8: no upstream failure escapes the pipeline — a failed platform
fetch (cache miss or stale entry) returns an empty arrivals list tagged
with the requested id as the name and writes nothing to the cache; with
every upstream failing, the handler still answers with an empty data
list; and with one of two platforms failing, the merge returns exactly
the surviving platform's arrivals. -/
theorem c8_fail_soft :
    (∀ (cache : ArrivalsCache) (nowMs : Int) (sid : String),
        cache.lookup sid = none →
        fetchSingleStationArrivals cache nowMs sid none =
          (⟨sid, []⟩, cache, true)) ∧
    (∀ (cache : ArrivalsCache) (nowMs : Int) (sid : String)
        (e : CacheEntry PlatformData),
        cache.lookup sid = some e → CACHE_TTL ≤ nowMs - e.timestamp →
        fetchSingleStationArrivals cache nowMs sid none =
          (⟨sid, []⟩, cache, true)) ∧
    (∀ (stationMap : List (String × Station))
        (parentMap : List (String × List String)) (nowMs : Int)
        (sid : String) (rp : Option String) (mp : Option Int)
        (rd : Option (List RouteInfo)),
        (getArrivals stationMap parentMap [] nowMs sid rp mp
          (fun _ => none) rd).1.data = []) ∧
    (∀ (nowMs : Int) (p1 p2 : String) (sd : StopResponse), p1 ≠ p2 →
        (fetchMultiStationArrivals [] nowMs
            [(p1, some sd), (p2, none)]).1.arrivals =
          (fetchSingleStationArrivals [] nowMs p1 (some sd)).1.arrivals) := by
  refine ⟨?_, ?_, ?_, ?_⟩
  · intro cache nowMs sid h
    simp [fetchSingleStationArrivals, h, fetchSingleMiss]
  · intro cache nowMs sid e he hstale
    have hnl : ¬(nowMs - e.timestamp < CACHE_TTL) := by omega
    simp [fetchSingleStationArrivals, he, hnl, fetchSingleMiss]
  · intro stationMap parentMap nowMs sid rp mp rd
    show ((jsSlice (sortByArrival (applyRouteFilter _
      ((fetchMultiStationArrivals [] nowMs _).1.arrivals.map _))) _).map _) = []
    rw [show ((resolveComplex stationMap parentMap sid).map
        fun pid => (pid, (fun _ => (none : Option StopResponse)) pid)) =
        ((resolveComplex stationMap parentMap sid).map
          fun pid => (pid, (none : Option StopResponse))) from rfl]
    have harr : (fetchMultiStationArrivals [] nowMs
        ((resolveComplex stationMap parentMap sid).map
          fun pid => (pid, (none : Option StopResponse)))).1.arrivals = [] := by
      show sortByArrival _ = []
      rw [collect_all_fail]
      rw [concatArr_eq _ []]
      simp only [List.nil_append, List.map_map]
      have : ((resolveComplex stationMap parentMap sid).map
          (PlatformData.arrivals ∘ fun pid => (⟨pid, []⟩ : PlatformData))).flatten =
          ([] : List ArrivalEntry) := by
        rw [List.flatten_eq_nil_iff]
        intro l hl
        obtain ⟨pid, _, rfl⟩ := List.mem_map.mp hl
        rfl
      rw [this]
      rfl
    rw [harr]
    simp only [List.map_nil, applyRouteFilter_nil]
    rw [show sortByArrival [] = [] from rfl, jsSlice_nil]
    rfl
  · intro nowMs p1 p2 sd hne
    have hp2 : ¬ p2 = p1 := fun h => hne h.symm
    show sortByArrival _ = _
    simp only [collectPlatformResults, fetchSingleStationArrivals,
      List.lookup_nil, fetchSingleMiss, mapSet, lookup_cons_eq,
      if_neg hp2, List.foldl_cons, List.foldl_nil, List.nil_append,
      List.append_nil]
    rw [sortByArrival, sortByArrival]
    exact jsSortBy_of_sorted _
      (sortedBy_jsSortBy arrivalLe_total arrivalLe_trans _)

/-- The status-overwrite step only allocates: the old store is a prefix of
the new one, and every produced address is fresh. -/
theorem applyStatusHeap_extends (ss : List (String × String)) :
    ∀ (addrs : List Nat) (store : List ArrivalEntry),
      (∃ ext, (applyStatusHeap ss store addrs).1 = store ++ ext) ∧
      (∀ a ∈ (applyStatusHeap ss store addrs).2, store.length ≤ a)
  | [], store => ⟨⟨[], by simp [applyStatusHeap]⟩, by simp [applyStatusHeap]⟩
  | a :: as, store => by
      obtain ⟨⟨ext, hext⟩, hfresh⟩ := applyStatusHeap_extends ss as
        (store ++ [applyServiceStatus ss (store.getD a default)])
      constructor
      · refine ⟨[applyServiceStatus ss (store.getD a default)] ++ ext, ?_⟩
        show (applyStatusHeap ss
          (store ++ [applyServiceStatus ss (store.getD a default)]) as).1 = _
        rw [hext, List.append_assoc]
      · intro b hb
        rcases List.mem_cons.mp hb with rfl | hb
        · exact le_refl _
        · have := hfresh b hb
          rw [List.length_append] at this
          omega

/-- C9: the post-fetch pipeline of the arrivals handler never mutates the
cached entries — the store after the run extends the input store (every
previously valid address still holds its original object), and the
response's data array references only freshly allocated copies. -/
theorem c9_no_cache_mutation (serviceStatus : List (String × String))
    (routeFilter : Option (List String)) (maxResults : Int)
    (store : List ArrivalEntry) (cached : List HeapPlatform) :
    ((getArrivalsHeap serviceStatus routeFilter maxResults store cached).1.take
        store.length = store) ∧
    (∀ a ∈ (getArrivalsHeap serviceStatus routeFilter maxResults store cached).2,
        store.length ≤ a) := by
  obtain ⟨⟨ext, hext⟩, hfresh⟩ := applyStatusHeap_extends serviceStatus
    (cached.foldl (fun acc p => acc ++ p.arrivalAddrs) []) store
  constructor
  · show (applyStatusHeap serviceStatus store
      (cached.foldl (fun acc p => acc ++ p.arrivalAddrs) [])).1.take
        store.length = store
    rw [hext]
    exact List.take_left store ext
  · intro a ha
    have h1 := mem_jsSlice _ _ a ha
    rw [mem_jsSortBy] at h1
    exact hfresh a (mem_heapRouteFilter _ _ _ a h1)

/-- Witness for C8: a failing fetch on an empty cache, and a two-platform
merge in which the second platform's fetch fails. -/
theorem c8_fail_soft_witness :
    (fetchSingleStationArrivals [] 0 "S" none = (⟨"S", []⟩, [], true)) ∧
    ((fetchMultiStationArrivals [] 0
        [("101", some ⟨some "S", [⟨some 60, some "1", none⟩]⟩),
         ("102", none)]).1.arrivals =
      (fetchSingleStationArrivals [] 0 "101"
        (some ⟨some "S", [⟨some 60, some "1", none⟩]⟩)).1.arrivals) :=
  ⟨c8_fail_soft.1 [] 0 "S" (by decide),
   c8_fail_soft.2.2.2 0 "101" "102"
     ⟨some "S", [⟨some 60, some "1", none⟩]⟩ (by decide)⟩

/-- Witness for C9: a one-entry store whose single cached address is
read, copied and returned as the fresh address 1, leaving address 0
untouched. -/
theorem c9_no_cache_mutation_witness :
    ((getArrivalsHeap [] none 30 [⟨"1", 5, "s", "t", "g"⟩]
        [⟨"S", [0]⟩]).1.take
          ([(⟨"1", 5, "s", "t", "g"⟩ : ArrivalEntry)] : List ArrivalEntry).length =
      [⟨"1", 5, "s", "t", "g"⟩]) ∧
    ((1 : Nat) ∈ (getArrivalsHeap [] none 30 [⟨"1", 5, "s", "t", "g"⟩]
        [⟨"S", [0]⟩]).2) ∧
    (([(⟨"1", 5, "s", "t", "g"⟩ : ArrivalEntry)] : List ArrivalEntry).length ≤ 1) :=
  ⟨(c9_no_cache_mutation [] none 30 [⟨"1", 5, "s", "t", "g"⟩] [⟨"S", [0]⟩]).1,
   by decide,
   (c9_no_cache_mutation [] none 30 [⟨"1", 5, "s", "t", "g"⟩] [⟨"S", [0]⟩]).2
     1 (by decide)⟩

end Hub
